import Mathlib

/-!
# Verification of `apollo-datasource-firestore`

A shallow embedding, in Lean 4, of the TypeScript sources of the
`apollo-datasource-firestore` package (`src/helpers.ts`, `src/datasource.ts`,
`src/types.ts`), together with proofs about the embedded definitions.

Modelling conventions:

* JavaScript values that can occur inside a Firestore document are embedded as
  the mutual inductive family `FSValue` / `FSList` / `FSObj`; the JSON trees
  produced by `JSON.stringify` and consumed by `JSON.parse` are embedded as
  `JValue` / `JList` / `JObj`.  `JSON.parse (JSON.stringify t)` is the
  identity on JSON trees, so the codec `encode = JSON.stringify(-, replacer)`
  and `decode = JSON.parse(-, reviver)` is modelled as the replacer applied
  top-down (`encodeV`) and the reviver applied bottom-up (`decodeV`).
* JavaScript machine integers appearing in `Timestamp` components are
  embedded as `Option ℤ` (`none` models `NaN`); the decimal formatting of
  such an integer by a template literal and the `parseInt(-, 10)` builtin are
  embedded concretely (`jsIntNumStr`, `jsParseInt`) and proved to round-trip.
* Plain JSON numbers are embedded as `ℚ` (finite doubles; `NaN` and the
  infinities are not JSON-native and out of the modelled value space).  The
  floating-point components of a `GeoPoint` are embedded as `Option ℚ`
  (`none` models `NaN`); the runtime's float formatting and `parseFloat` are
  kept abstract as parameters `nts` / `pf`, and theorems assume of them only
  facts true of the real runtime (formatting round-trips through parsing and
  produces no colon), pointwise at the components actually occurring.
* `undefined` flowing into `parseInt` / `parseFloat` is modelled as the
  string "undefined" (JavaScript coerces `undefined` to that string, and
  both builtins return `NaN` on it).
* The Firestore library constructors (`new Timestamp`, `new GeoPoint`,
  `firestore.doc`) are modelled as total constructors of the corresponding
  tagged values; their argument validation is owned by the external library.
-/

set_option autoImplicit false
set_option linter.unusedVariables false

namespace ApolloFirestore

/-! ## JavaScript string and number primitives -/

/-- The decimal digit character of `d % 10`, as produced by JavaScript
number formatting (code points 48-57). -/
def digitChar (d : Nat) : Char := Char.ofNat (48 + d % 10)

/-- The numeric value of a decimal digit character, `none` on any other
character. -/
def digitVal? (c : Char) : Option Nat :=
  if 48 ≤ c.toNat ∧ c.toNat ≤ 57 then some (c.toNat - 48) else none

def isDigitCh (c : Char) : Bool := (digitVal? c).isSome

/-- Base-10 digits of `n`, least significant first, with explicit fuel so
that the definition evaluates inside the kernel. -/
def natDigitsRev : Nat → Nat → List Nat
  | 0, _ => []
  | fuel + 1, n => if n = 0 then [] else n % 10 :: natDigitsRev fuel (n / 10)

/-- The decimal digit string of a natural number, most significant digit
first: the model of JavaScript `String(n)` for a non-negative integer. -/
def natToChars (n : Nat) : List Char :=
  if n = 0 then ['0'] else ((natDigitsRev (n + 1) n).map digitChar).reverse

/-- Value of a list of decimal digit characters (most significant first). -/
def digitsToNat (l : List Char) : Nat :=
  Nat.ofDigits 10 ((l.map (fun c => (digitVal? c).getD 0)).reverse)

/-- Parse the longest decimal-digit prefix; `none` when there is none
(the `NaN` outcome of `parseInt`). -/
def parseDigits (l : List Char) : Option Nat :=
  let pre := l.takeWhile isDigitCh
  if pre.isEmpty then none else some (digitsToNat pre)

/-- Model of JavaScript `parseInt(s, 10)`: skip leading whitespace, read an
optional sign and then the longest digit prefix; `none` models `NaN`. -/
def jsParseInt (s : String) : Option Int :=
  let l := s.data.dropWhile (fun c => c.isWhitespace)
  if l.headD ' ' = '-' then (parseDigits l.tail).map (fun n => -(n : Int))
  else if l.headD ' ' = '+' then (parseDigits l.tail).map (fun n => (n : Int))
  else (parseDigits l).map (fun n => (n : Int))

/-- The decimal character list of an integer, the model of JavaScript
`String(i)` for an integral number. -/
def jsIntChars (i : Int) : List Char :=
  if i < 0 then '-' :: natToChars i.natAbs else natToChars i.natAbs

/-- Template-literal formatting of a possibly-`NaN` integral JavaScript
number. -/
def jsIntNumStr (x : Option Int) : String :=
  match x with
  | none => "NaN"
  | some i => ⟨jsIntChars i⟩

theorem digitVal?_digitChar {d : Nat} (hd : d < 10) :
    digitVal? (digitChar d) = some d := by
  interval_cases d <;> decide

theorem isDigitCh_digitChar {d : Nat} (hd : d < 10) :
    isDigitCh (digitChar d) = true := by
  simp [isDigitCh, digitVal?_digitChar hd]

theorem digitChar_not_ws {d : Nat} (hd : d < 10) :
    (digitChar d).isWhitespace = false := by
  interval_cases d <;> decide

theorem digitChar_ne_minus {d : Nat} (hd : d < 10) : digitChar d ≠ '-' := by
  interval_cases d <;> decide

theorem digitChar_ne_plus {d : Nat} (hd : d < 10) : digitChar d ≠ '+' := by
  interval_cases d <;> decide

theorem digitChar_ne_colon {d : Nat} (hd : d < 10) : digitChar d ≠ ':' := by
  interval_cases d <;> decide

theorem mem_natDigitsRev_lt {fuel n d : Nat} (hd : d ∈ natDigitsRev fuel n) :
    d < 10 := by
  induction fuel generalizing n with
  | zero => simp [natDigitsRev] at hd
  | succ fuel ih =>
    unfold natDigitsRev at hd
    split at hd
    · simp at hd
    · rcases List.mem_cons.mp hd with h | h
      · omega
      · exact ih h

theorem natDigitsRev_ne_nil {fuel n : Nat} (hn : n ≠ 0) (hf : fuel ≠ 0) :
    natDigitsRev fuel n ≠ [] := by
  obtain ⟨f, rfl⟩ := Nat.exists_eq_succ_of_ne_zero hf
  unfold natDigitsRev
  rw [if_neg hn]
  simp

theorem ofDigits_natDigitsRev {fuel n : Nat} (h : n ≤ fuel) :
    Nat.ofDigits 10 (natDigitsRev fuel n) = n := by
  induction fuel generalizing n with
  | zero => interval_cases n; rfl
  | succ fuel ih =>
    unfold natDigitsRev
    split
    · simp only [Nat.ofDigits_nil]; omega
    · rename_i hn
      rw [Nat.ofDigits_cons, ih (by
        have := Nat.div_lt_self (Nat.pos_of_ne_zero hn) (by omega : 1 < 10)
        omega)]
      omega

theorem natToChars_all_digits {n : Nat} {c : Char} (hc : c ∈ natToChars n) :
    ∃ d, d < 10 ∧ c = digitChar d := by
  unfold natToChars at hc
  split at hc
  · simp at hc
    exact ⟨0, by omega, hc⟩
  · simp only [List.mem_reverse, List.mem_map] at hc
    obtain ⟨d, hdmem, rfl⟩ := hc
    exact ⟨d, mem_natDigitsRev_lt hdmem, rfl⟩

theorem natToChars_ne_nil (n : Nat) : natToChars n ≠ [] := by
  unfold natToChars
  split
  · simp
  · simp only [ne_eq, List.reverse_eq_nil_iff, List.map_eq_nil_iff]
    exact natDigitsRev_ne_nil (by assumption) (by omega)

theorem digitsToNat_natToChars (n : Nat) : digitsToNat (natToChars n) = n := by
  unfold natToChars
  split
  · subst n; rfl
  · unfold digitsToNat
    rw [List.map_reverse, List.reverse_reverse, List.map_map]
    have hmap : (natDigitsRev (n + 1) n).map ((fun c => (digitVal? c).getD 0) ∘ digitChar) =
        (natDigitsRev (n + 1) n).map id :=
      List.map_congr_left (fun d hd => by
        simp [Function.comp, digitVal?_digitChar (mem_natDigitsRev_lt hd)])
    rw [hmap, List.map_id, ofDigits_natDigitsRev (by omega)]

theorem parseDigits_natToChars (n : Nat) : parseDigits (natToChars n) = some n := by
  have hall : (natToChars n).takeWhile isDigitCh = natToChars n := by
    rw [List.takeWhile_eq_self_iff]
    intro c hc
    obtain ⟨d, hd, rfl⟩ := natToChars_all_digits hc
    exact isDigitCh_digitChar hd
  unfold parseDigits
  simp only [hall]
  rw [if_neg (by simpa [List.isEmpty_iff] using natToChars_ne_nil n)]
  rw [digitsToNat_natToChars]

theorem jsParseInt_natToChars (n : Nat) :
    jsParseInt ⟨natToChars n⟩ = some (n : Int) := by
  obtain ⟨c, cs, hcons⟩ : ∃ c cs, natToChars n = c :: cs := by
    cases h : natToChars n with
    | nil => exact absurd h (natToChars_ne_nil n)
    | cons c cs => exact ⟨c, cs, rfl⟩
  obtain ⟨d, hd, hc⟩ := natToChars_all_digits (by rw [hcons]; exact List.mem_cons_self c cs)
  unfold jsParseInt
  simp only [hcons]
  rw [List.dropWhile_cons_of_neg (by subst hc; simp [digitChar_not_ws hd])]
  rw [if_neg (by subst hc; simpa using digitChar_ne_minus hd)]
  rw [if_neg (by subst hc; simpa using digitChar_ne_plus hd)]
  rw [← hcons, parseDigits_natToChars]
  rfl

theorem jsParseInt_jsIntNumStr (x : Option Int) :
    jsParseInt (jsIntNumStr x) = x := by
  match x with
  | none => decide
  | some i =>
    show jsParseInt ⟨jsIntChars i⟩ = some i
    unfold jsIntChars
    split
    · next hneg =>
      unfold jsParseInt
      rw [List.dropWhile_cons_of_neg (by decide)]
      rw [if_pos (by simp)]
      simp only [List.tail_cons]
      rw [parseDigits_natToChars]
      show some (-((i.natAbs : Nat) : Int)) = some i
      congr 1
      omega
    · next hpos =>
      rw [jsParseInt_natToChars]
      congr 1
      omega

theorem natToChars_colon_free {n : Nat} : ':' ∉ natToChars n := by
  intro hc
  obtain ⟨d, hd, hc⟩ := natToChars_all_digits hc
  exact digitChar_ne_colon hd hc.symm

theorem jsIntNumStr_colon_free (x : Option Int) : ':' ∉ (jsIntNumStr x).data := by
  match x with
  | none => decide
  | some i =>
    show ':' ∉ jsIntChars i
    unfold jsIntChars
    split
    · intro hc
      rcases List.mem_cons.mp hc with h | h
      · exact absurd h.symm (by decide)
      · exact natToChars_colon_free h
    · exact natToChars_colon_free

/-! ## The model of JavaScript `String.prototype.split` with a one-character
separator -/

/-- Prepend a character to the first piece of a split result. -/
def consHead (c : Char) : List (List Char) → List (List Char)
  | [] => [[c]]
  | r :: rs => (c :: r) :: rs

def splitChar (sep : Char) : List Char → List (List Char)
  | [] => [[]]
  | c :: cs =>
    if c = sep then [] :: splitChar sep cs
    else consHead c (splitChar sep cs)

theorem splitChar_no_sep {sep : Char} {l : List Char} (h : sep ∉ l) :
    splitChar sep l = [l] := by
  induction l with
  | nil => rfl
  | cons c cs ih =>
    unfold splitChar
    rw [if_neg (by intro hc; exact h (hc ▸ List.mem_cons_self c cs))]
    rw [ih (fun hm => h (List.mem_cons_of_mem c hm))]
    rfl

theorem splitChar_append {sep : Char} {a b : List Char} (h : sep ∉ a) :
    splitChar sep (a ++ sep :: b) = a :: splitChar sep b := by
  induction a with
  | nil => simp [splitChar]
  | cons c cs ih =>
    have hcne : c ≠ sep := fun hc => h (hc ▸ List.mem_cons_self c cs)
    have hrest : sep ∉ cs := fun hm => h (List.mem_cons_of_mem c hm)
    simp only [List.cons_append]
    rw [splitChar, if_neg hcne, ih hrest, consHead]

/-- Model of JavaScript `s.split(sep)` for a one-character separator. -/
def jsSplit (sep : Char) (s : String) : List String :=
  (splitChar sep s.data).map (fun l => String.mk l)

theorem data_append_colon (t p : String) :
    (t ++ ":" ++ p).data = t.data ++ ':' :: p.data := by
  simp [String.data_append]

theorem jsSplit_two {t p : String} (ht : ':' ∉ t.data) (hp : ':' ∉ p.data) :
    jsSplit ':' (t ++ ":" ++ p) = [t, p] := by
  unfold jsSplit
  rw [data_append_colon, splitChar_append ht, splitChar_no_sep hp]
  rfl

theorem jsSplit_three {t p q : String} (ht : ':' ∉ t.data) (hp : ':' ∉ p.data)
    (hq : ':' ∉ q.data) : jsSplit ':' (t ++ ":" ++ p ++ ":" ++ q) = [t, p, q] := by
  unfold jsSplit
  have hdata : (t ++ ":" ++ p ++ ":" ++ q).data =
      t.data ++ ':' :: (p.data ++ ':' :: q.data) := by
    simp [String.data_append]
  rw [hdata, splitChar_append ht, splitChar_append hp, splitChar_no_sep hq]
  rfl

theorem isPrefixOf_append (a b : List Char) : a.isPrefixOf (a ++ b) = true := by
  induction a with
  | nil => simp [List.isPrefixOf]
  | cons c cs ih => simp [List.isPrefixOf, ih]

theorem eq_append_of_isPrefixOf {p l : List Char} (h : p.isPrefixOf l = true) :
    ∃ r, l = p ++ r := by
  induction p generalizing l with
  | nil => exact ⟨l, rfl⟩
  | cons c cs ih =>
    cases l with
    | nil => simp [List.isPrefixOf] at h
    | cons d ds =>
      simp only [List.isPrefixOf, Bool.and_eq_true, beq_iff_eq] at h
      obtain ⟨rfl, h2⟩ := h
      obtain ⟨r, hr⟩ := ih h2
      exact ⟨r, by simp [hr]⟩

/-! ## The value model

`FSValue` embeds the JavaScript values that can occur in a Firestore
document: JSON-native values plus the three tagged kinds handled by the
codec of `src/helpers.ts` (`firestore.Timestamp`, `firestore.GeoPoint`,
`firestore.DocumentReference`).  `JValue` embeds plain JSON trees, the
transport format between `JSON.stringify` and `JSON.parse`. -/

mutual
inductive FSValue : Type where
  | vNull
  | vBool (b : Bool)
  | vNum (q : ℚ)
  | vStr (s : String)
  | vTimestamp (seconds nanoseconds : Option ℤ)
  | vGeoPoint (latitude longitude : Option ℚ)
  | vDocRef (path : String)
  | vArr (xs : FSList)
  | vObj (kvs : FSObj)
  deriving DecidableEq
inductive FSList : Type where
  | nil
  | cons (hd : FSValue) (tl : FSList)
  deriving DecidableEq
inductive FSObj : Type where
  | nil
  | cons (key : String) (val : FSValue) (tl : FSObj)
  deriving DecidableEq
end

mutual
inductive JValue : Type where
  | jNull
  | jBool (b : Bool)
  | jNum (q : ℚ)
  | jStr (s : String)
  | jArr (xs : JList)
  | jObj (kvs : JObj)
  deriving DecidableEq
inductive JList : Type where
  | nil
  | cons (hd : JValue) (tl : JList)
  deriving DecidableEq
inductive JObj : Type where
  | nil
  | cons (key : String) (val : JValue) (tl : JObj)
  deriving DecidableEq
end

/-! ## The codec of `src/helpers.ts` -/

def tsTag : String := "$$Timestamp$$"

def geoTag : String := "$$GeoPoint$$"

def refTag : String := "$$DocumentReference$$"

/-- Model of the anchored regular expression
`/^\$\$(Timestamp|GeoPoint|DocumentReference)\$\$:/` applied by `.test`:
the string starts with one of the three sentinel tags followed by a colon. -/
def symbolMatch (s : String) : Bool :=
  List.isPrefixOf (tsTag ++ ":").data s.data ||
  List.isPrefixOf (geoTag ++ ":").data s.data ||
  List.isPrefixOf (refTag ++ ":").data s.data

/-- Model of `collection.firestore.doc(path)`: rebuilding a live
`DocumentReference` from a slash-separated path.  The library's own path
validation (even segment count, non-empty ids) is external to this
repository and the constructor is modelled as total; the rebuilt
reference's `path` property is the argument itself. -/
def firestoreDoc (path : String) : FSValue := .vDocRef path

/-- `replacer` from `src/helpers.ts` (lines 55-63): maps each tagged value
to its sentinel-prefixed string and returns every other value unchanged.
The template-literal formatting of the numeric components is `jsIntNumStr`
for the integral `Timestamp` components and the abstract runtime float
formatter `nts` for the `GeoPoint` components. -/
def replacer (nts : Option ℚ → String) (value : FSValue) : FSValue :=
  match value with
  | .vTimestamp s n => .vStr (tsTag ++ ":" ++ jsIntNumStr s ++ ":" ++ jsIntNumStr n)
  | .vDocRef p => .vStr (refTag ++ ":" ++ p)
  | .vGeoPoint la lo => .vStr (geoTag ++ ":" ++ nts la ++ ":" ++ nts lo)
  | v => v

/-- The reviver returned by `reviverFactory` in `src/helpers.ts` (lines
35-53): a string matching the sentinel pattern is split on `':'` and
dispatched on its first piece; every other value is returned unchanged.
An out-of-range `split[i]` is `undefined` in JavaScript and is coerced to
the string "undefined" by `parseInt` / `parseFloat`, which is how it is
modelled here. -/
def reviver (pf : String → Option ℚ) (value : FSValue) : FSValue :=
  match value with
  | .vStr s =>
    if symbolMatch s then
      let split := jsSplit ':' s
      match split.headD "" with
      | "$$Timestamp$$" =>
        .vTimestamp (jsParseInt (split.getD 1 "undefined"))
          (jsParseInt (split.getD 2 "undefined"))
      | "$$DocumentReference$$" => firestoreDoc (split.getD 1 "undefined")
      | "$$GeoPoint$$" =>
        .vGeoPoint (pf (split.getD 1 "undefined")) (pf (split.getD 2 "undefined"))
      | _ => .vStr s
    else .vStr s
  | v => v

/-! `encodeV` models `encode(v) = JSON.stringify(v, replacer)`: the
replacer applied top-down, with the JSON text transport
(`JSON.parse ∘ JSON.stringify` being the identity on JSON trees) left
implicit.  On each leaf it agrees with `replacer`. -/

mutual
def encodeV (nts : Option ℚ → String) : FSValue → JValue
  | .vNull => .jNull
  | .vBool b => .jBool b
  | .vNum q => .jNum q
  | .vStr s => .jStr s
  | .vTimestamp s n => .jStr (tsTag ++ ":" ++ jsIntNumStr s ++ ":" ++ jsIntNumStr n)
  | .vDocRef p => .jStr (refTag ++ ":" ++ p)
  | .vGeoPoint la lo => .jStr (geoTag ++ ":" ++ nts la ++ ":" ++ nts lo)
  | .vArr xs => .jArr (encodeL nts xs)
  | .vObj kvs => .jObj (encodeO nts kvs)
def encodeL (nts : Option ℚ → String) : FSList → JList
  | .nil => .nil
  | .cons x xs => .cons (encodeV nts x) (encodeL nts xs)
def encodeO (nts : Option ℚ → String) : FSObj → JObj
  | .nil => .nil
  | .cons k v kvs => .cons k (encodeV nts v) (encodeO nts kvs)
end

/-! `decodeV` models `decode(t) = JSON.parse(t, reviver)`: the reviver
applied bottom-up to every value of the parsed JSON tree. -/

mutual
def decodeV (pf : String → Option ℚ) : JValue → FSValue
  | .jNull => reviver pf .vNull
  | .jBool b => reviver pf (.vBool b)
  | .jNum q => reviver pf (.vNum q)
  | .jStr s => reviver pf (.vStr s)
  | .jArr xs => reviver pf (.vArr (decodeL pf xs))
  | .jObj kvs => reviver pf (.vObj (decodeO pf kvs))
def decodeL (pf : String → Option ℚ) : JList → FSList
  | .nil => .nil
  | .cons x xs => .cons (decodeV pf x) (decodeL pf xs)
def decodeO (pf : String → Option ℚ) : JObj → FSObj
  | .nil => .nil
  | .cons k v kvs => .cons k (decodeV pf v) (decodeO pf kvs)
end

/-! ## Behaviour of the reviver on sentinel strings -/

theorem tsTag_colon_free : ':' ∉ tsTag.data := by decide

theorem geoTag_colon_free : ':' ∉ geoTag.data := by decide

theorem refTag_colon_free : ':' ∉ refTag.data := by decide

theorem symbolMatch_ts (a b : String) :
    symbolMatch (tsTag ++ ":" ++ a ++ ":" ++ b) = true := by
  unfold symbolMatch
  simp only [Bool.or_eq_true]
  left; left
  rw [show (tsTag ++ ":" ++ a ++ ":" ++ b).data =
      (tsTag ++ ":").data ++ (a ++ ":" ++ b).data by simp [String.data_append]]
  exact isPrefixOf_append _ _

theorem symbolMatch_geo (a b : String) :
    symbolMatch (geoTag ++ ":" ++ a ++ ":" ++ b) = true := by
  unfold symbolMatch
  simp only [Bool.or_eq_true]
  left; right
  rw [show (geoTag ++ ":" ++ a ++ ":" ++ b).data =
      (geoTag ++ ":").data ++ (a ++ ":" ++ b).data by simp [String.data_append]]
  exact isPrefixOf_append _ _

theorem symbolMatch_ref (p : String) :
    symbolMatch (refTag ++ ":" ++ p) = true := by
  unfold symbolMatch
  simp only [Bool.or_eq_true]
  right
  rw [show (refTag ++ ":" ++ p).data = (refTag ++ ":").data ++ p.data by
    simp [String.data_append]]
  exact isPrefixOf_append _ _

theorem reviver_ts_sentinel (pf : String → Option ℚ) (s n : Option ℤ) :
    reviver pf (.vStr (tsTag ++ ":" ++ jsIntNumStr s ++ ":" ++ jsIntNumStr n)) =
      .vTimestamp s n := by
  have hsp : jsSplit ':' (tsTag ++ ":" ++ jsIntNumStr s ++ ":" ++ jsIntNumStr n) =
      [tsTag, jsIntNumStr s, jsIntNumStr n] :=
    jsSplit_three tsTag_colon_free (jsIntNumStr_colon_free s) (jsIntNumStr_colon_free n)
  simp only [reviver, symbolMatch_ts, if_true, hsp]
  simp [tsTag, jsParseInt_jsIntNumStr]

theorem reviver_ref_sentinel (pf : String → Option ℚ) {p : String}
    (hp : ':' ∉ p.data) :
    reviver pf (.vStr (refTag ++ ":" ++ p)) = .vDocRef p := by
  have hsp : jsSplit ':' (refTag ++ ":" ++ p) = [refTag, p] :=
    jsSplit_two refTag_colon_free hp
  simp only [reviver, symbolMatch_ref, if_true, hsp]
  simp [refTag, firestoreDoc]

theorem reviver_geo_sentinel (pf : String → Option ℚ) (nts : Option ℚ → String)
    {la lo : Option ℚ} (h1 : pf (nts la) = la) (h2 : pf (nts lo) = lo)
    (hc1 : ':' ∉ (nts la).data) (hc2 : ':' ∉ (nts lo).data) :
    reviver pf (.vStr (geoTag ++ ":" ++ nts la ++ ":" ++ nts lo)) =
      .vGeoPoint la lo := by
  have hsp : jsSplit ':' (geoTag ++ ":" ++ nts la ++ ":" ++ nts lo) =
      [geoTag, nts la, nts lo] := jsSplit_three geoTag_colon_free hc1 hc2
  simp only [reviver, symbolMatch_geo, if_true, hsp]
  simp [geoTag, h1, h2]

theorem reviver_not_match (pf : String → Option ℚ) {s : String}
    (h : symbolMatch s = false) : reviver pf (.vStr s) = .vStr s := by
  simp [reviver, h]

/-- Whether an `FSValue` is a JavaScript string. -/
def isStrV : FSValue → Bool
  | .vStr _ => true
  | _ => false

theorem reviver_of_not_str (pf : String → Option ℚ) {v : FSValue}
    (h : isStrV v = false) : reviver pf v = v := by
  cases v <;> first | rfl | simp [isStrV] at h

example :
    decodeV (fun _ => none) (encodeV (fun _ => "NaN") (.vTimestamp (some 7) (some 42))) =
      .vTimestamp (some 7) (some 42) := by decide

example :
    decodeV (fun _ => none)
        (encodeV (fun _ => "NaN") (.vObj (.cons "a" (.vDocRef "users/1") .nil))) =
      .vObj (.cons "a" (.vDocRef "users/1") .nil) := by decide

example :
    decodeV (fun _ => none)
        (encodeV (fun _ => "NaN") (.vStr "$$Timestamp$$:1:2")) ≠
      .vStr "$$Timestamp$$:1:2" := by decide

example :
    decodeV (fun _ => none)
        (encodeV (fun _ => "NaN") (.vDocRef "users/a:b")) ≠
      .vDocRef "users/a:b" := by decide

/-! ## Round-trip safety conditions -/

/-! `safeV v` rules out exactly the two representational collisions of the
sentinel encoding: a genuine user string matching the sentinel pattern, and
a document-reference path containing the separator `':'`. -/

mutual
def safeV : FSValue → Bool
  | .vStr s => !symbolMatch s
  | .vDocRef p => decide (':' ∉ p.data)
  | .vArr xs => safeL xs
  | .vObj kvs => safeO kvs
  | _ => true
def safeL : FSList → Bool
  | .nil => true
  | .cons x xs => safeV x && safeL xs
def safeO : FSObj → Bool
  | .nil => true
  | .cons _ v kvs => safeV v && safeO kvs
end

/-! `floatsV v` collects the `GeoPoint` components of `v`, the only places
where the abstract runtime float formatter is consulted. -/

mutual
def floatsV : FSValue → List (Option ℚ)
  | .vGeoPoint la lo => [la, lo]
  | .vArr xs => floatsL xs
  | .vObj kvs => floatsO kvs
  | _ => []
def floatsL : FSList → List (Option ℚ)
  | .nil => []
  | .cons x xs => floatsV x ++ floatsL xs
def floatsO : FSObj → List (Option ℚ)
  | .nil => []
  | .cons _ v kvs => floatsV v ++ floatsO kvs
end

/-- The facts assumed of the runtime float parser/formatter pair, pointwise
at a list of components: formatting round-trips through parsing and emits
no colon.  Both hold of JavaScript `parseFloat` and number-to-string on
every double. -/
abbrev FloatFmtOk (pf : String → Option ℚ) (nts : Option ℚ → String)
    (l : List (Option ℚ)) : Prop :=
  ∀ x ∈ l, pf (nts x) = x ∧ ':' ∉ (nts x).data

theorem FloatFmtOk.mono {pf : String → Option ℚ} {nts : Option ℚ → String}
    {l l' : List (Option ℚ)} (h : FloatFmtOk pf nts l) (hsub : ∀ x ∈ l', x ∈ l) :
    FloatFmtOk pf nts l' := fun x hx => h x (hsub x hx)

mutual
def rtV (pf : String → Option ℚ) (nts : Option ℚ → String) :
    ∀ v : FSValue, safeV v = true → FloatFmtOk pf nts (floatsV v) →
      decodeV pf (encodeV nts v) = v
  | .vNull, _, _ => rfl
  | .vBool _, _, _ => rfl
  | .vNum _, _, _ => rfl
  | .vStr s, hs, _ => reviver_not_match pf (by simpa [safeV] using hs)
  | .vTimestamp s n, _, _ => reviver_ts_sentinel pf s n
  | .vGeoPoint la lo, _, hf => by
    have h1 := hf la (by simp [floatsV])
    have h2 := hf lo (by simp [floatsV])
    exact reviver_geo_sentinel pf nts h1.1 h2.1 h1.2 h2.2
  | .vDocRef p, hs, _ =>
    reviver_ref_sentinel pf (of_decide_eq_true (by simpa [safeV] using hs))
  | .vArr xs, hs, hf => by
    show reviver pf (.vArr (decodeL pf (encodeL nts xs))) = .vArr xs
    rw [rtL pf nts xs (by simpa [safeV] using hs) (by simpa [floatsV] using hf)]
    rfl
  | .vObj kvs, hs, hf => by
    show reviver pf (.vObj (decodeO pf (encodeO nts kvs))) = .vObj kvs
    rw [rtO pf nts kvs (by simpa [safeV] using hs) (by simpa [floatsV] using hf)]
    rfl
def rtL (pf : String → Option ℚ) (nts : Option ℚ → String) :
    ∀ xs : FSList, safeL xs = true → FloatFmtOk pf nts (floatsL xs) →
      decodeL pf (encodeL nts xs) = xs
  | .nil, _, _ => rfl
  | .cons x xs, hs, hf => by
    have hs' := (Bool.and_eq_true _ _).mp (by simpa [safeL] using hs)
    have hfx : FloatFmtOk pf nts (floatsV x) :=
      FloatFmtOk.mono (by simpa [floatsL] using hf) (fun y hy => List.mem_append_left _ hy)
    have hfxs : FloatFmtOk pf nts (floatsL xs) :=
      FloatFmtOk.mono (by simpa [floatsL] using hf) (fun y hy => List.mem_append_right _ hy)
    show FSList.cons (decodeV pf (encodeV nts x)) (decodeL pf (encodeL nts xs)) =
      FSList.cons x xs
    rw [rtV pf nts x hs'.1 hfx, rtL pf nts xs hs'.2 hfxs]
def rtO (pf : String → Option ℚ) (nts : Option ℚ → String) :
    ∀ kvs : FSObj, safeO kvs = true → FloatFmtOk pf nts (floatsO kvs) →
      decodeO pf (encodeO nts kvs) = kvs
  | .nil, _, _ => rfl
  | .cons k v kvs, hs, hf => by
    have hs' := (Bool.and_eq_true _ _).mp (by simpa [safeO] using hs)
    have hfv : FloatFmtOk pf nts (floatsV v) :=
      FloatFmtOk.mono (by simpa [floatsO] using hf) (fun y hy => List.mem_append_left _ hy)
    have hfkvs : FloatFmtOk pf nts (floatsO kvs) :=
      FloatFmtOk.mono (by simpa [floatsO] using hf) (fun y hy => List.mem_append_right _ hy)
    show FSObj.cons k (decodeV pf (encodeV nts v)) (decodeO pf (encodeO nts kvs)) =
      FSObj.cons k v kvs
    rw [rtV pf nts v hs'.1 hfv, rtO pf nts kvs hs'.2 hfkvs]
end

/-! ## A concrete instance of the runtime float parser/formatter pair

Used to instantiate the abstract `pf` / `nts` parameters on concrete
inputs.  It formats the integer part only, so it satisfies the `FloatFmtOk`
facts at every integral component (the only ones used below). -/

def numToStr0 : Option ℚ → String :=
  fun x => match x with
  | none => "NaN"
  | some q => ⟨jsIntChars q.num⟩

def parseFloat0 : String → Option ℚ :=
  fun s => (jsParseInt s).map (fun i => (i : ℚ))

/-- A sample document exercising every supported value shape: JSON-native
null, boolean, number, string, array and object, a `Timestamp`, a
`GeoPoint`, and a `DocumentReference`. -/
def sampleDoc : FSValue :=
  .vObj (.cons "id" (.vStr "42")
    (.cons "deleted" (.vBool false)
      (.cons "score" (.vNum 3)
        (.cons "note" .vNull
          (.cons "lastSeen" (.vTimestamp (some 1690000000) (some 0))
            (.cons "home" (.vGeoPoint (some 12) (some (-5)))
              (.cons "friend" (.vDocRef "users/7")
                (.cons "tags" (.vArr (.cons (.vStr "a") .nil)) .nil))))))))

/-- **C1** — counterexample.  A document whose only field is the
JSON-native string "$$Timestamp$$:1:2" is a supported value shape, yet
decoding its encoding turns the field into a `Timestamp`: the round trip
is not the identity on all supported shapes. -/
theorem decode_encode_sentinel_collision :
    decodeV parseFloat0 (encodeV numToStr0
        (.vObj (.cons "s" (.vStr "$$Timestamp$$:1:2") .nil))) ≠
      .vObj (.cons "s" (.vStr "$$Timestamp$$:1:2") .nil) := by decide

/-- **C1** (amended): decoding the encoding is the identity on every
document whose plain string fields do not match the sentinel pattern and
whose `DocumentReference` paths contain no colon, assuming of the runtime
float formatting only that it round-trips through `parseFloat` and emits
no colon at the `GeoPoint` components occurring in the document.  In
particular a `DocumentReference` is reconstructed with its original
path. -/
theorem decode_encode_roundtrip (pf : String → Option ℚ) (nts : Option ℚ → String)
    (v : FSValue) (hsafe : safeV v = true)
    (hfmt : FloatFmtOk pf nts (floatsV v)) :
    decodeV pf (encodeV nts v) = v :=
  rtV pf nts v hsafe hfmt

theorem decode_encode_roundtrip_witness :
    safeV sampleDoc = true ∧
    FloatFmtOk parseFloat0 numToStr0 (floatsV sampleDoc) ∧
    decodeV parseFloat0 (encodeV numToStr0 sampleDoc) = sampleDoc :=
  ⟨by decide, by decide,
    decode_encode_roundtrip parseFloat0 numToStr0 sampleDoc (by decide) (by decide)⟩

/-- Whether an `FSValue` is one of the three tagged kinds handled by the
codec. -/
def isTagged : FSValue → Bool
  | .vTimestamp _ _ => true
  | .vGeoPoint _ _ => true
  | .vDocRef _ => true
  | _ => false

/-- **C4** — counterexample.  The encoder maps the (legal) reference whose
path is "users/a:b" to the sentinel string
"$$DocumentReference$$:users/a:b", but re-encoding its decoding yields
"$$DocumentReference$$:users/a" — the textual form is not reproduced. -/
theorem sentinel_reencode_collision :
    replacer numToStr0 (.vDocRef "users/a:b") =
      .vStr "$$DocumentReference$$:users/a:b" ∧
    encodeV numToStr0 (decodeV parseFloat0 (.jStr "$$DocumentReference$$:users/a:b")) ≠
      .jStr "$$DocumentReference$$:users/a:b" := ⟨by decide, by decide⟩

/-- **C4** (amended): for every tagged value `v` satisfying the round-trip
safety condition (reference path free of colons) and the runtime float
formatting facts, the sentinel string `t` the encoder produces for `v`
re-encodes, after decoding, to exactly the same textual form `t`. -/
theorem sentinel_reencode_stable (pf : String → Option ℚ) (nts : Option ℚ → String)
    (v : FSValue) (t : String) (htag : isTagged v = true)
    (hrep : replacer nts v = .vStr t) (hsafe : safeV v = true)
    (hfmt : FloatFmtOk pf nts (floatsV v)) :
    encodeV nts (decodeV pf (.jStr t)) = .jStr t := by
  cases v with
  | vTimestamp s n =>
    have ht : t = tsTag ++ ":" ++ jsIntNumStr s ++ ":" ++ jsIntNumStr n := by
      have := hrep
      simp only [replacer, FSValue.vStr.injEq] at this
      exact this.symm
    subst ht
    show encodeV nts (reviver pf (.vStr _)) = _
    rw [reviver_ts_sentinel]
    rfl
  | vGeoPoint la lo =>
    have h1 := hfmt la (by simp [floatsV])
    have h2 := hfmt lo (by simp [floatsV])
    have ht : t = geoTag ++ ":" ++ nts la ++ ":" ++ nts lo := by
      have := hrep
      simp only [replacer, FSValue.vStr.injEq] at this
      exact this.symm
    subst ht
    show encodeV nts (reviver pf (.vStr _)) = _
    rw [reviver_geo_sentinel pf nts h1.1 h2.1 h1.2 h2.2]
    rfl
  | vDocRef p =>
    have hp : ':' ∉ p.data := of_decide_eq_true (by simpa [safeV] using hsafe)
    have ht : t = refTag ++ ":" ++ p := by
      have := hrep
      simp only [replacer, FSValue.vStr.injEq] at this
      exact this.symm
    subst ht
    show encodeV nts (reviver pf (.vStr _)) = _
    rw [reviver_ref_sentinel pf hp]
    rfl
  | vNull => simp [isTagged] at htag
  | vBool b => simp [isTagged] at htag
  | vNum q => simp [isTagged] at htag
  | vStr s => simp [isTagged] at htag
  | vArr xs => simp [isTagged] at htag
  | vObj kvs => simp [isTagged] at htag

theorem sentinel_reencode_stable_witness :
    replacer numToStr0 (.vTimestamp (some 5) (some 6)) = .vStr "$$Timestamp$$:5:6" ∧
    encodeV numToStr0 (decodeV parseFloat0 (.jStr "$$Timestamp$$:5:6")) =
      .jStr "$$Timestamp$$:5:6" :=
  ⟨by decide,
    sentinel_reencode_stable parseFloat0 numToStr0 (.vTimestamp (some 5) (some 6))
      "$$Timestamp$$:5:6" (by decide) (by decide) (by decide) (by decide)⟩

/-! ## C5: dispatch behaviour of the reviver on arbitrary strings -/

inductive FireKind : Type where
  | timestamp
  | geoPoint
  | docRef
  deriving DecidableEq

/-- The sentinel kind carried by a string, read off the anchored pattern
exactly as the regular expression `symbolMatch` reads it. -/
def tagKind (s : String) : Option FireKind :=
  if List.isPrefixOf (tsTag ++ ":").data s.data then some .timestamp
  else if List.isPrefixOf (geoTag ++ ":").data s.data then some .geoPoint
  else if List.isPrefixOf (refTag ++ ":").data s.data then some .docRef
  else none

/-- The tagged kind of a reconstructed value. -/
def valueKind : FSValue → Option FireKind
  | .vTimestamp _ _ => some .timestamp
  | .vGeoPoint _ _ => some .geoPoint
  | .vDocRef _ => some .docRef
  | _ => none

theorem jsSplit_head_of_pre {tag s : String} (ht : ':' ∉ tag.data) {r : List Char}
    (hs : s.data = tag.data ++ ':' :: r) :
    jsSplit ':' s = tag :: (splitChar ':' r).map (fun l => String.mk l) := by
  unfold jsSplit
  rw [show s = String.mk (tag.data ++ ':' :: r) from String.ext hs]
  show ((splitChar ':' (tag.data ++ ':' :: r)).map fun l => String.mk l) = _
  rw [splitChar_append ht]
  rfl

theorem reviver_kind_ts {pf : String → Option ℚ} {s : String}
    (h : List.isPrefixOf (tsTag ++ ":").data s.data = true) :
    valueKind (reviver pf (.vStr s)) = some .timestamp := by
  obtain ⟨r, hr⟩ := eq_append_of_isPrefixOf h
  have hr' : s.data = tsTag.data ++ ':' :: r := by
    simpa [String.data_append] using hr
  have hm : symbolMatch s = true := by
    unfold symbolMatch
    simp only [Bool.or_eq_true]
    left; left
    exact h
  have hsp := jsSplit_head_of_pre tsTag_colon_free hr'
  simp only [reviver, hm, if_true, hsp]
  simp [tsTag, valueKind]

theorem reviver_kind_geo {pf : String → Option ℚ} {s : String}
    (h : List.isPrefixOf (geoTag ++ ":").data s.data = true) :
    valueKind (reviver pf (.vStr s)) = some .geoPoint := by
  obtain ⟨r, hr⟩ := eq_append_of_isPrefixOf h
  have hr' : s.data = geoTag.data ++ ':' :: r := by
    simpa [String.data_append] using hr
  have hm : symbolMatch s = true := by
    unfold symbolMatch
    simp only [Bool.or_eq_true]
    left; right
    exact h
  have hsp := jsSplit_head_of_pre geoTag_colon_free hr'
  simp only [reviver, hm, if_true, hsp]
  simp [geoTag, valueKind]

theorem reviver_kind_ref {pf : String → Option ℚ} {s : String}
    (h : List.isPrefixOf (refTag ++ ":").data s.data = true) :
    valueKind (reviver pf (.vStr s)) = some .docRef := by
  obtain ⟨r, hr⟩ := eq_append_of_isPrefixOf h
  have hr' : s.data = refTag.data ++ ':' :: r := by
    simpa [String.data_append] using hr
  have hm : symbolMatch s = true := by
    unfold symbolMatch
    simp only [Bool.or_eq_true]
    right
    exact h
  have hsp := jsSplit_head_of_pre refTag_colon_free hr'
  simp only [reviver, hm, if_true, hsp]
  simp [refTag, valueKind, firestoreDoc]

/-- **C5**: during decode, every string matching the sentinel pattern is
reconstructed into a tagged value of the kind named by its tag (whether or
not it was a genuine user string), every string not matching the pattern
passes through unchanged, and every non-string value passes through the
reviver unchanged. -/
theorem reviver_dispatch (pf : String → Option ℚ) :
    (∀ s k, tagKind s = some k → valueKind (reviver pf (.vStr s)) = some k) ∧
    (∀ s, tagKind s = none → reviver pf (.vStr s) = .vStr s) ∧
    (∀ v, isStrV v = false → reviver pf v = v) := by
  refine ⟨?_, ?_, fun v hv => reviver_of_not_str pf hv⟩
  · intro s k hk
    unfold tagKind at hk
    split_ifs at hk with h1 h2 h3
    · cases hk; exact reviver_kind_ts (by simpa using h1)
    · cases hk; exact reviver_kind_geo (by simpa using h2)
    · cases hk; exact reviver_kind_ref (by simpa using h3)
  · intro s h
    unfold tagKind at h
    split_ifs at h with h1 h2 h3
    refine reviver_not_match pf ?_
    have hne : ¬symbolMatch s = true := by
      unfold symbolMatch
      simp only [Bool.or_eq_true]
      rintro ((ha | hb) | hc)
      · exact h1 (by simpa using ha)
      · exact h2 (by simpa using hb)
      · exact h3 (by simpa using hc)
    exact Bool.eq_false_iff.mpr hne

theorem reviver_dispatch_witness :
    tagKind "$$GeoPoint$$:1:2" = some .geoPoint ∧
    valueKind (reviver parseFloat0 (.vStr "$$GeoPoint$$:1:2")) = some .geoPoint :=
  ⟨by decide,
    (reviver_dispatch parseFloat0).1 "$$GeoPoint$$:1:2" .geoPoint (by decide)⟩

/-! ## The converter of `src/helpers.ts` -/

/-- Last-binding-wins lookup on an embedded JavaScript object: in an
object literal with spreads, a later entry overrides an earlier one with
the same key. -/
def jsGet : FSObj → String → Option FSValue
  | .nil, _ => none
  | .cons k v t, key =>
    match jsGet t key with
    | some r => some r
    | none => if k = key then some v else none

/-- A query-document snapshot as the converter sees it: the document id
(`snap.id`), the id of the owning collection (`snap.ref.parent.id`) and
the stored fields (`snap.data()`). -/
structure Snap where
  id : String
  parentId : String
  data : FSObj
  deriving DecidableEq

/-- `fromFirestore` of `FirestoreConverter` in `src/helpers.ts`:
`{ id: snap.id, collection: snap.ref.parent.id, ...snap.data() }`. -/
def fromFirestore (snap : Snap) : FSObj :=
  .cons "id" (.vStr snap.id) (.cons "collection" (.vStr snap.parentId) snap.data)

/-- `toFirestore` of `FirestoreConverter` in `src/helpers.ts`: the rest
pattern `({ id, collection, ...data }) => data` drops exactly the two
library fields. -/
def toFirestore : FSObj → FSObj
  | .nil => .nil
  | .cons k v t =>
    if k = "id" ∨ k = "collection" then toFirestore t else .cons k v (toFirestore t)

/-! ## The data source of `src/datasource.ts`

State is explicit: `DSState` carries the document store, the request-scoped
loader memo and the shared backing cache, and every operation returns its
result, the successor state, and the ordered trace of store/cache effects
it performed.  The loader memo and the backing cache are the two tiers
managed by `createCachingMethods` in `src/cache.ts`, a file outside the
sources under verification; the operations over them are modelled from the
spec and marked as such. -/

/-- Association-list lookup (first binding wins; `aset` keeps keys unique). -/
def alookup {α : Type} : List (String × α) → String → Option α
  | [], _ => none
  | (k, v) :: t, key => if k = key then some v else alookup t key

def aremove {α : Type} (l : List (String × α)) (key : String) : List (String × α) :=
  l.filter (fun p => p.1 != key)

def aset {α : Type} (l : List (String × α)) (key : String) (v : α) :
    List (String × α) :=
  (key, v) :: aremove l key

/-- The document store of one collection, by document id, holding stored
(`toFirestore`-stripped) field maps. -/
def Store : Type := List (String × FSObj)

structure DSState where
  collName : String
  store : List (String × FSObj)
  memo : List (String × Option FSObj)
  kv : List (String × FSObj)
  deriving DecidableEq

/-- One store/cache effect, in the order the code performs them. -/
inductive DSEvent : Type where
  | storeDelete (id : String)
  | storeSet (id : String) (merge : Bool)
  | storeAdd (id : String)
  | storeGet (id : String)
  | storeBatchGet (ids : List String)
  | storeQuery
  | cacheGet (id : String)
  | cacheSet (id : String)
  | cacheDelete (id : String)
  | cachePrime (docs : List FSObj)
  deriving DecidableEq

/-- Reading `doc.id` off an embedded document (a `LibraryFields` field). -/
def docId (d : FSObj) : String :=
  match jsGet d "id" with
  | some (.vStr s) => s
  | _ => ""

/-- Modelled from the spec: cache keys are `prefix + collection + ":" + id`
(§3, Cache Entry); the tenant prefix is not modelled. -/
def cacheKey (coll id : String) : String := coll ++ ":" ++ id

/-- Modelled from the spec: `primeLoader` of `createCachingMethods`
(`src/cache.ts`, not under the verified sources) writes each document
through to both tiers, the loader memo and the backing cache (§4.4). -/
def primeLoaderReady (st : DSState) (docs : List FSObj) (ttl : Option Nat) :
    DSState × List DSEvent :=
  ({ st with
      memo := docs.foldl (fun m d => aset m (docId d) (some d)) st.memo,
      kv := docs.foldl (fun c d => aset c (cacheKey st.collName (docId d)) d) st.kv },
   [.cachePrime docs])

/-- Modelled from the spec: `deleteFromCacheById` of `createCachingMethods`
removes the entry from both the loader memo and the backing cache and does
not touch the store (§4.4). -/
def deleteFromCacheByIdReady (st : DSState) (id : String) :
    DSState × List DSEvent :=
  ({ st with
      memo := aremove st.memo id,
      kv := aremove st.kv (cacheKey st.collName id) },
   [.cacheDelete id])

/-- Modelled from the spec: one scheduling tick of the batching loader
(§4.2).  All `load` calls issued in the tick are registered first; the ids
not already memoized are deduplicated and fetched from the store in one
batch; every result (found or not-found) is memoized; each caller reads
its answer from the memo. -/
def loadTick (st : DSState) (calls : List String) :
    List (Option FSObj) × DSState × List DSEvent :=
  let missing := (calls.filter (fun i => (alookup st.memo i).isNone)).dedup
  let fetched := missing.map (fun i =>
    (i, (alookup st.store i).map (fun d => fromFirestore ⟨i, st.collName, d⟩)))
  let memo' := fetched.foldl (fun m p => aset m p.1 p.2) st.memo
  (calls.map (fun i => (alookup memo' i).join),
   { st with memo := memo' },
   if missing.isEmpty then [] else [.storeBatchGet missing])

/-- Modelled from the spec: `findOneById` of `createCachingMethods` (§4.4):
check the backing cache first (bypassing the loader on a hit), delegate to
the loader on a miss, cache a found document, and do not cache a
not-found result. -/
def findOneByIdReady (st : DSState) (id : String) (ttl : Option Nat) :
    Option FSObj × DSState × List DSEvent :=
  match alookup st.kv (cacheKey st.collName id) with
  | some d => (some d, st, [.cacheGet id])
  | none =>
    match loadTick st [id] with
    | (res, st1, tr) =>
      match res.getD 0 none with
      | some d =>
        (some d, { st1 with kv := aset st1.kv (cacheKey st.collName id) d },
         .cacheGet id :: tr ++ [.cacheSet id])
      | none => (none, st1, .cacheGet id :: tr)

/-- Modelled from the spec: `findManyByIds` of `createCachingMethods`
(§4.4): per-id backing-cache check, one coalesced batch for the misses,
results reassembled in input order. -/
def findManyByIdsReady (st : DSState) (ids : List String) (ttl : Option Nat) :
    List (Option FSObj) × DSState × List DSEvent :=
  let misses := ids.filter (fun i => (alookup st.kv (cacheKey st.collName i)).isNone)
  match loadTick st misses with
  | (_, st1, tr) =>
    ((ids.map fun i =>
        match alookup st.kv (cacheKey st.collName i) with
        | some d => some d
        | none => (alookup st1.memo i).join),
     st1, ids.map .cacheGet ++ tr)

/-- The message thrown by `placeholderHandler` in `src/datasource.ts`. -/
def placeholderMsg : String := "DataSource not initialized"

/-- The duck-typing probe `isFirestoreCollection` of `src/helpers.ts`
checks the truthiness of the `id`, `path`, `firestore` and `doc`
properties of its argument.  The argument is modelled with the four
probed capabilities: the two string properties (absent, or present and
possibly empty — the empty string is falsy) and the two object-valued
ones (absent or present; objects and functions are always truthy). -/
structure MaybeCollection where
  id : Option String
  path : Option String
  firestore : Option Unit
  doc : Option Unit
  deriving DecidableEq

/-- JavaScript truthiness of an optional string property. -/
def truthyStr : Option String → Bool
  | none => false
  | some s => decide (s ≠ "")

/-- JavaScript truthiness of an optional object/function property. -/
def truthyObj : Option Unit → Bool := Option.isSome

/-- `isFirestoreCollection` from `src/helpers.ts`. -/
def isFirestoreCollection (m : MaybeCollection) : Bool :=
  truthyStr m.id && truthyStr m.path && truthyObj m.firestore && truthyObj m.doc

/-- The constructed data source: the collection it wraps and whether
`initialize` has replaced the placeholder caching methods. -/
structure FirestoreDataSource where
  collName : String
  initialized : Bool
  deriving DecidableEq

/-- The `FirestoreDataSource` constructor (`src/datasource.ts` lines
107-117): validates the collection handle and throws before any operation
can be invoked; on success the caching methods are still the placeholders. -/
def mkFirestoreDataSource (m : MaybeCollection) : Except String FirestoreDataSource :=
  if isFirestoreCollection m then
    .ok { collName := m.id.getD "", initialized := false }
  else
    .error "FirestoreDataSource must be created with a Firestore collection (from @google-cloud/firestore)"

/-- `initialize` (`src/datasource.ts` lines 119-132): builds the caching
methods (`createCachingMethods`) and installs them over the placeholders
via `Object.assign`. -/
def initDS (ds : FirestoreDataSource) : FirestoreDataSource :=
  { ds with initialized := true }

/-- `findOneById` as dispatched on a data source: the placeholder until
`initialize` has run, the caching method afterwards. -/
def findOneById (init : Bool) (st : DSState) (id : String) (ttl : Option Nat) :
    Except String (Option FSObj) × DSState × List DSEvent :=
  if init then
    (.ok (findOneByIdReady st id ttl).1, (findOneByIdReady st id ttl).2.1,
      (findOneByIdReady st id ttl).2.2)
  else (.error placeholderMsg, st, [])

/-- `findManyByIds` as dispatched on a data source. -/
def findManyByIds (init : Bool) (st : DSState) (ids : List String) (ttl : Option Nat) :
    Except String (List (Option FSObj)) × DSState × List DSEvent :=
  if init then
    (.ok (findManyByIdsReady st ids ttl).1, (findManyByIdsReady st ids ttl).2.1,
      (findManyByIdsReady st ids ttl).2.2)
  else (.error placeholderMsg, st, [])

/-- `deleteFromCacheById` as dispatched on a data source. -/
def deleteFromCacheById (init : Bool) (st : DSState) (id : String) :
    Except String Unit × DSState × List DSEvent :=
  if init then
    (.ok (), (deleteFromCacheByIdReady st id).1, (deleteFromCacheByIdReady st id).2)
  else (.error placeholderMsg, st, [])

/-- `primeLoader` as dispatched on a data source. -/
def primeLoader (init : Bool) (st : DSState) (docs : List FSObj) (ttl : Option Nat) :
    Except String Unit × DSState × List DSEvent :=
  if init then
    (.ok (), (primeLoaderReady st docs ttl).1, (primeLoaderReady st docs ttl).2)
  else (.error placeholderMsg, st, [])

/-! The CRUD convenience methods of `src/datasource.ts`.  They are stated
over an initialized data source (their cache calls go to the installed
caching methods); the uninitialized dispatch is the subject of the
placeholder theorems.  The collection was wrapped `withConverter`, so a
store write passes through `toFirestore` and a snapshot read through
`fromFirestore`. -/

/-- `findManyByQuery` (`src/datasource.ts` lines 43-55): run the query
against the store, read each snapshot through the converter, and, when the
`dataLoader` tier exists (after `initialize`), prime all results. -/
def findManyByQuery (init : Bool) (st : DSState)
    (queryFn : List (String × FSObj) → List (String × FSObj)) (ttl : Option Nat) :
    List FSObj × DSState × List DSEvent :=
  let results := (queryFn st.store).map (fun p => fromFirestore ⟨p.1, st.collName, p.2⟩)
  if init then
    (results, (primeLoaderReady st results ttl).1,
      .storeQuery :: (primeLoaderReady st results ttl).2)
  else (results, st, [.storeQuery])

/-- `updateOne` (`src/datasource.ts` lines 79-91): set the document at
`data.id`, read it back, and prime the result into both cache tiers when
the store returns a document. -/
def updateOne (st : DSState) (data : FSObj) : Option FSObj × DSState × List DSEvent :=
  let id := docId data
  let st1 := { st with store := aset st.store id (toFirestore data) }
  let result := (alookup st1.store id).map (fun d => fromFirestore ⟨id, st.collName, d⟩)
  match result with
  | some r =>
    let pr := primeLoaderReady st1 [r] none
    (some r, pr.1, .storeSet id false :: .storeGet id :: pr.2)
  | none => (none, st1, [.storeSet id false, .storeGet id])

/-- `createOne` (`src/datasource.ts` lines 57-70): a document that already
carries an `id` field is routed to `updateOne` (discarding the `ttl`
option); otherwise the store adds it under a fresh id (`freshId`, the id
Firestore generates), it is read back, and the result is primed. -/
def createOne (st : DSState) (freshId : String) (newDoc : FSObj) (ttl : Option Nat) :
    Option FSObj × DSState × List DSEvent :=
  if (jsGet newDoc "id").isSome then updateOne st newDoc
  else
    let st1 := { st with store := aset st.store freshId (toFirestore newDoc) }
    let result := (alookup st1.store freshId).map (fun d =>
      fromFirestore ⟨freshId, st.collName, d⟩)
    match result with
    | some r =>
      let pr := primeLoaderReady st1 [r] ttl
      (some r, pr.1, .storeAdd freshId :: .storeGet freshId :: pr.2)
    | none => (none, st1, [.storeAdd freshId, .storeGet freshId])

/-- `deleteOne` (`src/datasource.ts` lines 72-77): delete from the store,
then remove the id from both cache tiers. -/
def deleteOne (st : DSState) (id : String) : DSState × List DSEvent :=
  let st1 := { st with store := aremove st.store id }
  let del := deleteFromCacheByIdReady st1 id
  (del.1, .storeDelete id :: del.2)

/-- Concatenation of embedded objects; later entries override earlier ones
under `jsGet`. -/
def appendObj : FSObj → FSObj → FSObj
  | .nil, b => b
  | .cons k v t, b => .cons k v (appendObj t b)

/-- The stored field map after a merge-set of `data` into the document at
`id`: the store's merge makes the fields of `data` override the existing
ones (the nested-map deep merge of Firestore is not distinguished; no
claim depends on it). -/
def mergedData (st : DSState) (id : String) (data : FSObj) : FSObj :=
  match alookup st.store id with
  | some old => appendObj old (toFirestore data)
  | none => toFirestore data

/-- `updateOnePartial` (`src/datasource.ts` lines 93-105): merge-set the
fields at `id`, read the document back, and prime the result when the
store returns a document. -/
def updateOnePartial (st : DSState) (id : String) (data : FSObj) :
    Option FSObj × DSState × List DSEvent :=
  let st1 := { st with store := aset st.store id (mergedData st id data) }
  let result := (alookup st1.store id).map (fun d => fromFirestore ⟨id, st.collName, d⟩)
  match result with
  | some r =>
    let pr := primeLoaderReady st1 [r] none
    (some r, pr.1, .storeSet id true :: .storeGet id :: pr.2)
  | none => (none, st1, [.storeSet id true, .storeGet id])

/-! ## Supporting lemmas for the state-level theorems -/

theorem alookup_aset_self {α : Type} (l : List (String × α)) (k : String) (v : α) :
    alookup (aset l k v) k = some v := by
  simp [aset, alookup]

theorem jsGet_cons_isSome (k : String) (v : FSValue) (t : FSObj) :
    (jsGet (FSObj.cons k v t) k).isSome = true := by
  cases h : jsGet t k <;> simp [jsGet, h]

theorem jsGet_cons_isSome_of (k' k : String) (v : FSValue) (t : FSObj)
    (h : (jsGet t k).isSome = true) :
    (jsGet (FSObj.cons k' v t) k).isSome = true := by
  cases hh : jsGet t k
  · rw [hh] at h; simp at h
  · simp [jsGet, hh]

def jsGet_toFirestore_none : ∀ (d : FSObj) (key : String),
    key = "id" ∨ key = "collection" → jsGet (toFirestore d) key = none
  | .nil, _, _ => rfl
  | .cons k v t, key, hk => by
    unfold toFirestore
    split
    · exact jsGet_toFirestore_none t key hk
    · rename_i hnot
      have hkne : k ≠ key := by
        rcases hk with rfl | rfl
        · exact fun hc => hnot (Or.inl hc)
        · exact fun hc => hnot (Or.inr hc)
      show (match jsGet (toFirestore t) key with
        | some r => some r
        | none => if k = key then some v else none) = none
      rw [jsGet_toFirestore_none t key hk]
      simp [hkne]

/-- **C3**: every document produced by the decode path (`fromFirestore`)
has the `id` and `collection` fields present, and the encode path
(`toFirestore`) strips both fields from every document before it is
persisted. -/
theorem converter_library_fields (snap : Snap) (doc : FSObj) :
    (jsGet (fromFirestore snap) "id").isSome = true ∧
    (jsGet (fromFirestore snap) "collection").isSome = true ∧
    jsGet (toFirestore doc) "id" = none ∧
    jsGet (toFirestore doc) "collection" = none :=
  ⟨jsGet_cons_isSome "id" _ _,
   jsGet_cons_isSome_of "id" "collection" _ _ (jsGet_cons_isSome "collection" _ snap.data),
   jsGet_toFirestore_none doc "id" (Or.inl rfl),
   jsGet_toFirestore_none doc "collection" (Or.inr rfl)⟩

/-- **C6**: every mutating convenience operation hits the store first and
only then updates the cache tiers — `deleteOne` performs the store delete
and then the two-tier cache delete; `updateOne`, `createOne` (on the
fresh-document path) and `updateOnePartial` perform the store write, read
the stored document back, and then prime it into both tiers via the
priming call; the store read-back after a write always returns a
document, so the prime always happens. -/
theorem mutations_store_then_cache (st : DSState) (id freshId pid : String)
    (data newDoc pdata : FSObj) (ttl : Option Nat) :
    (deleteOne st id).2 = [.storeDelete id, .cacheDelete id] ∧
    (updateOne st data).2.2 =
      [.storeSet (docId data) false, .storeGet (docId data),
       .cachePrime [fromFirestore ⟨docId data, st.collName, toFirestore data⟩]] ∧
    ((jsGet newDoc "id").isSome = false →
      (createOne st freshId newDoc ttl).2.2 =
        [.storeAdd freshId, .storeGet freshId,
         .cachePrime [fromFirestore ⟨freshId, st.collName, toFirestore newDoc⟩]]) ∧
    ( updateOnePartial st pid pdata).2.2 =
      [.storeSet pid true, .storeGet pid,
       .cachePrime [fromFirestore ⟨pid, st.collName, mergedData st pid pdata⟩]] := by
  refine ⟨?_, ?_, ?_, ?_⟩
  · simp [deleteOne, deleteFromCacheByIdReady]
  · simp [updateOne, alookup_aset_self, primeLoaderReady]
  · intro h
    unfold createOne
    rw [if_neg (by simp [h])]
    simp [alookup_aset_self, primeLoaderReady]
  · unfold updateOnePartial
    simp [alookup_aset_self, primeLoaderReady]

theorem mutations_store_then_cache_witness :
    (jsGet FSObj.nil "id").isSome = false ∧
    (createOne ⟨"users", [], [], []⟩ "n1" FSObj.nil none).2.2 =
      [.storeAdd "n1", .storeGet "n1",
       .cachePrime [fromFirestore ⟨"n1", "users", toFirestore FSObj.nil⟩]] :=
  ⟨by decide,
    (mutations_store_then_cache ⟨"users", [], [], []⟩ "x" "n1" "p"
      FSObj.nil FSObj.nil FSObj.nil none).2.2.1 (by decide)⟩

/-- **C9**: for every input document that carries an `id` field,
`createOne` with any `ttl` option is literally `updateOne`: same result,
same successor state, same effect trace; the `ttl` is discarded on this
path. -/
theorem createOne_with_id_is_updateOne (st : DSState) (freshId : String)
    (newDoc : FSObj) (ttl : Option Nat) (h : (jsGet newDoc "id").isSome = true) :
    createOne st freshId newDoc ttl = updateOne st newDoc := by
  unfold createOne
  rw [if_pos h]

theorem createOne_with_id_is_updateOne_witness :
    (jsGet (FSObj.cons "id" (.vStr "7") .nil) "id").isSome = true ∧
    createOne ⟨"users", [], [], []⟩ "n1" (FSObj.cons "id" (.vStr "7") .nil) (some 5) =
      updateOne ⟨"users", [], [], []⟩ (FSObj.cons "id" (.vStr "7") .nil) :=
  ⟨by decide,
    createOne_with_id_is_updateOne ⟨"users", [], [], []⟩ "n1"
      (FSObj.cons "id" (.vStr "7") .nil) (some 5) (by decide)⟩

/-- **C8**: `findManyByQuery` (on an initialized source) executes the
query against the store, returns exactly the converted sequence of
documents the query snapshot yields, primes all of them into the
loader/cache in one priming call, and performs no cache read. -/
theorem findManyByQuery_primes_not_reads (st : DSState)
    (qf : List (String × FSObj) → List (String × FSObj)) (ttl : Option Nat) :
    (findManyByQuery true st qf ttl).1 =
      (qf st.store).map (fun p => fromFirestore ⟨p.1, st.collName, p.2⟩) ∧
    (findManyByQuery true st qf ttl).2.2 =
      [.storeQuery,
       .cachePrime ((qf st.store).map (fun p => fromFirestore ⟨p.1, st.collName, p.2⟩))] ∧
    ∀ i, DSEvent.cacheGet i ∉ (findManyByQuery true st qf ttl).2.2 := by
  refine ⟨by simp [findManyByQuery], by simp [findManyByQuery, primeLoaderReady], ?_⟩
  intro i
  simp [findManyByQuery, primeLoaderReady]

theorem filter_replicate_pos {p : String → Bool} {a : String} (h : p a = true)
    (N : Nat) : (List.replicate N a).filter p = List.replicate N a := by
  induction N with
  | zero => rfl
  | succ n ih => simp [List.replicate_succ, List.filter_cons, h, ih]

theorem dedup_replicate {a : String} {N : Nat} (h : 0 < N) :
    (List.replicate N a).dedup = [a] := by
  induction N with
  | zero => omega
  | succ n ih =>
    cases n with
    | zero => simp
    | succ m =>
      rw [List.replicate_succ, List.dedup_cons_of_mem (by simp), ih (by omega)]

/-- **C2**: within one scheduling tick of the batching loader, `N`
concurrent `load(id)` calls for an id not yet memoized in this request
produce exactly one store fetch — a single batch containing that id once —
and every one of the `N` callers receives the same result. -/
theorem load_coalesces (st : DSState) (id : String) (N : Nat) (hN : 0 < N)
    (hmemo : alookup st.memo id = none) :
    (loadTick st (List.replicate N id)).2.2 = [.storeBatchGet [id]] ∧
    (loadTick st (List.replicate N id)).1 =
      List.replicate N
        ((alookup st.store id).map (fun d => fromFirestore ⟨id, st.collName, d⟩)) := by
  have hfil : (List.replicate N id).filter (fun i => (alookup st.memo i).isNone) =
      List.replicate N id := filter_replicate_pos (by simp [hmemo]) N
  have hded : (List.replicate N id).dedup = [id] := dedup_replicate hN
  unfold loadTick
  simp only [hfil, hded]
  constructor
  · simp
  · simp [alookup_aset_self, List.map_replicate]

theorem load_coalesces_witness :
    (loadTick ⟨"users", [("7", FSObj.nil)], [], []⟩ (List.replicate 3 "7")).2.2 =
      [.storeBatchGet ["7"]] ∧
    (loadTick ⟨"users", [("7", FSObj.nil)], [], []⟩ (List.replicate 3 "7")).1 =
      List.replicate 3 (some (fromFirestore ⟨"7", "users", FSObj.nil⟩)) :=
  load_coalesces ⟨"users", [("7", FSObj.nil)], [], []⟩ "7" 3 (by decide) (by decide)

/-- **C7**: constructing a `FirestoreDataSource` with an argument lacking
any of the `id`, `path`, `firestore` or `doc` capabilities throws at
construction time, before any operation is invoked. -/
theorem constructor_fails_fast (m : MaybeCollection)
    (h : m.id = none ∨ m.path = none ∨ m.firestore = none ∨ m.doc = none) :
    mkFirestoreDataSource m =
      .error "FirestoreDataSource must be created with a Firestore collection (from @google-cloud/firestore)" := by
  unfold mkFirestoreDataSource
  have hc : ¬(isFirestoreCollection m = true) := by
    rcases h with h | h | h | h <;> simp [isFirestoreCollection, truthyStr, truthyObj, h]
  rw [if_neg hc]

theorem constructor_fails_fast_witness :
    ((⟨none, some "users", some (), some ()⟩ : MaybeCollection).id = none) ∧
    mkFirestoreDataSource ⟨none, some "users", some (), some ()⟩ =
      .error "FirestoreDataSource must be created with a Firestore collection (from @google-cloud/firestore)" :=
  ⟨rfl, constructor_fails_fast ⟨none, some "users", some (), some ()⟩ (Or.inl rfl)⟩

/-- **C10**: a constructed data source starts uninitialized; before
`initialize` every caching method is the placeholder, which fails with
exactly the error "DataSource not initialized" and leaves the state
untouched with no effects; after `initialize` the four methods are the
installed caching methods and the placeholder error is unreachable. -/
theorem placeholder_until_initialized :
    (∀ m ds, mkFirestoreDataSource m = .ok ds → ds.initialized = false) ∧
    (∀ st id ttl, findOneById false st id ttl = (.error placeholderMsg, st, [])) ∧
    (∀ st ids ttl, findManyByIds false st ids ttl = (.error placeholderMsg, st, [])) ∧
    (∀ st id, deleteFromCacheById false st id = (.error placeholderMsg, st, [])) ∧
    (∀ st docs ttl, primeLoader false st docs ttl = (.error placeholderMsg, st, [])) ∧
    (∀ ds, (initDS ds).initialized = true) ∧
    (∀ ds st id ttl,
      (findOneById (initDS ds).initialized st id ttl).1 ≠ .error placeholderMsg) ∧
    (∀ ds st ids ttl,
      (findManyByIds (initDS ds).initialized st ids ttl).1 ≠ .error placeholderMsg) ∧
    (∀ ds st id,
      (deleteFromCacheById (initDS ds).initialized st id).1 ≠ .error placeholderMsg) ∧
    (∀ ds st docs ttl,
      (primeLoader (initDS ds).initialized st docs ttl).1 ≠ .error placeholderMsg) := by
  refine ⟨?_, ?_, ?_, ?_, ?_, ?_, ?_, ?_, ?_, ?_⟩
  · intro m ds h
    unfold mkFirestoreDataSource at h
    split at h
    · injection h with h'
      rw [← h']
    · cases h
  · intro st id ttl; rfl
  · intro st ids ttl; rfl
  · intro st id; rfl
  · intro st docs ttl; rfl
  · intro ds; rfl
  · intro ds st id ttl; simp [findOneById, initDS]
  · intro ds st ids ttl; simp [findManyByIds, initDS]
  · intro ds st id; simp [deleteFromCacheById, initDS]
  · intro ds st docs ttl; simp [primeLoader, initDS]

theorem placeholder_until_initialized_witness :
    mkFirestoreDataSource ⟨some "users", some "users", some (), some ()⟩ =
      .ok ⟨"users", false⟩ ∧
    (⟨"users", false⟩ : FirestoreDataSource).initialized = false :=
  ⟨rfl,
    (placeholder_until_initialized).1 ⟨some "users", some "users", some (), some ()⟩
      ⟨"users", false⟩ rfl⟩

end ApolloFirestore
